import Mathlib

/-!
# The pulse dashboard view (`tnuix/frontend/src/App.js`)

A shallow embedding of the `App` component: its state (`chartData`), the
`ws.onmessage` handler with the state updater it passes to `setChartData`, the
effect that opens the WebSocket and the cleanup that closes it, and the element
tree the component renders.

The language run-time the component relies on (the values `JSON.parse` can
produce, property access, the WebSocket ready states, the way React applies a
state updater) is modelled alongside, each piece marked as such.
-/

namespace App

/-! ## JavaScript values that reach the component -/

/-- The exceptions the run-time can raise in this component. -/
inductive JSError where
  | SyntaxError
  | TypeError
  | InvalidAccessError
  deriving DecidableEq, Repr

/-- A JavaScript string: its sequence of UTF-16 code units. -/
abbrev JSString := List Nat

/-- UTF-16 code units of one Unicode scalar value. -/
def codeUnits (c : Char) : List Nat :=
  if c.toNat < 0x10000 then [c.toNat]
  else [0xD800 + (c.toNat - 0x10000) / 0x400, 0xDC00 + (c.toNat - 0x10000) % 0x400]

/-- UTF-16 code units of a text. -/
def utf16 (s : String) : JSString :=
  s.toList.flatMap codeUnits

/-- A number as `JSON.parse` reads it: sign, decimal digits and power of ten.
`JSON.parse` rounds this decimal to a double; the component stores numbers
without ever inspecting them, so the decimal is kept as written. -/
structure JNumber where
  negative : Bool
  digits : Nat
  exponent : Int
  deriving DecidableEq, Repr

/-- The values `JSON.parse` can return. The members of an object are kept in
the order of the text; a later member with the same key overrides an earlier
one. -/
inductive JValue where
  | null
  | bool (b : Bool)
  | num (n : JNumber)
  | str (s : JSString)
  | arr (items : List JValue)
  | obj (members : List (JSString × JValue))

/-- The result of reading a property: `undefined`, or a value that came out of
`JSON.parse`. -/
inductive JSValue where
  | undefined
  | json (v : JValue)

/-- The four property names the handler reads from a message. -/
inductive Field where
  | cun
  | guan
  | chi
  | timestamp
  deriving DecidableEq, Repr

/-- The property name of a field, as written in the source. -/
def Field.key : Field → JSString
  | .cun => utf16 "cun"
  | .guan => utf16 "guan"
  | .chi => utf16 "chi"
  | .timestamp => utf16 "timestamp"

/-- Own property `key` of an object built by `JSON.parse` from `members`:
the last member with that key, `undefined` when there is none. -/
def ownProperty (members : List (JSString × JValue)) (key : JSString) : JSValue :=
  members.foldl (fun acc kv => if kv.1 = key then JSValue.json kv.2 else acc) JSValue.undefined

/-- The value of `data.f` for a `data` that is not `null`, with `f` one of
`cun`, `guan`, `chi`, `timestamp`. On an object it is the own property (none of
the four names is on `Object.prototype`). On an array, string, number or boolean
it is `undefined` (none of the four names is on their prototypes). -/
def JValue.field (data : JValue) (f : Field) : JSValue :=
  match data with
  | .obj members => ownProperty members f.key
  | _ => .undefined

/-- Property access `data.f`: a `TypeError` on `null`, the value of the
property otherwise. -/
def getField (data : JValue) (f : Field) : Except JSError JSValue :=
  match data with
  | .null => .error .TypeError
  | other => .ok (other.field f)

/-! ## `JSON.parse` -/

namespace JSON

/-- JSON white space: space, tab, line feed, carriage return. -/
def isWhitespace (c : Char) : Bool :=
  c = ' ' || c = '\t' || c = '\n' || c = '\r'

/-- Drop leading white space. -/
def skipWhitespace : List Char → List Char
  | [] => []
  | c :: cs => if isWhitespace c then skipWhitespace cs else c :: cs

/-- Value of a decimal digit. -/
def digitValue (c : Char) : Option Nat :=
  if 48 ≤ c.toNat ∧ c.toNat ≤ 57 then some (c.toNat - 48) else none

/-- Value of a hexadecimal digit, either case. -/
def hexValue (c : Char) : Option Nat :=
  if 48 ≤ c.toNat ∧ c.toNat ≤ 57 then some (c.toNat - 48)
  else if 65 ≤ c.toNat ∧ c.toNat ≤ 70 then some (c.toNat - 55)
  else if 97 ≤ c.toNat ∧ c.toNat ≤ 102 then some (c.toNat - 87)
  else none

/-- Read a maximal run of decimal digits onto `acc`; returns the number read,
how many digits there were, and the rest of the text. -/
def readDigits : Nat → Nat → List Char → Nat × Nat × List Char
  | acc, count, [] => (acc, count, [])
  | acc, count, c :: cs =>
    match digitValue c with
    | some d => readDigits (acc * 10 + d) (count + 1) cs
    | none => (acc, count, c :: cs)

/-- The integer part of a number: a single `0`, or a digit run that does not
start with `0`. -/
def readInt : List Char → Option (Nat × List Char)
  | [] => none
  | c :: cs =>
    match digitValue c with
    | none => none
    | some 0 => some (0, cs)
    | some d => let r := readDigits d 1 cs; some (r.1, r.2.2)

/-- The optional fraction: `.` and at least one digit, read onto `acc`;
returns the digits so far and the number of fraction digits. -/
def readFrac (acc : Nat) : List Char → Option (Nat × Nat × List Char)
  | '.' :: cs =>
    let r := readDigits acc 0 cs
    if r.2.1 = 0 then none else some r
  | cs => some (acc, 0, cs)

/-- A run of at least one digit, as used in an exponent. -/
def readExpDigits (cs : List Char) : Option (Nat × List Char) :=
  let r := readDigits 0 0 cs
  if r.2.1 = 0 then none else some (r.1, r.2.2)

/-- The optional exponent: `e` or `E`, an optional sign, at least one digit. -/
def readExp (cs : List Char) : Option (Int × List Char) :=
  match cs with
  | c :: rest =>
    if c = 'e' ∨ c = 'E' then
      match rest with
      | '+' :: ds => (readExpDigits ds).map (fun r => ((r.1 : Int), r.2))
      | '-' :: ds => (readExpDigits ds).map (fun r => (-(r.1 : Int), r.2))
      | ds => (readExpDigits ds).map (fun r => ((r.1 : Int), r.2))
    else some (0, cs)
  | [] => some (0, [])

/-- A JSON number. -/
def parseNumber (cs : List Char) : Option (JNumber × List Char) := do
  let (negative, cs1) := match cs with
    | '-' :: rest => (true, rest)
    | _ => (false, cs)
  let (whole, cs2) ← readInt cs1
  let (digits, fracCount, cs3) ← readFrac whole cs2
  let (exp, cs4) ← readExp cs3
  pure ({ negative := negative, digits := digits, exponent := exp - fracCount }, cs4)

/-- The body of a string after its opening quote, up to and including the
closing quote, appended to `acc` as UTF-16 code units. -/
def parseString : List Char → JSString → Option (JSString × List Char)
  | [], _ => none
  | '"' :: rest, acc => some (acc, rest)
  | '\\' :: 'u' :: a :: b :: c :: d :: rest, acc =>
    match hexValue a, hexValue b, hexValue c, hexValue d with
    | some x, some y, some z, some w => parseString rest (acc ++ [((x * 16 + y) * 16 + z) * 16 + w])
    | _, _, _, _ => none
  | '\\' :: e :: rest, acc =>
    if e = '"' then parseString rest (acc ++ [0x22])
    else if e = '\\' then parseString rest (acc ++ [0x5C])
    else if e = '/' then parseString rest (acc ++ [0x2F])
    else if e = 'b' then parseString rest (acc ++ [0x08])
    else if e = 'f' then parseString rest (acc ++ [0x0C])
    else if e = 'n' then parseString rest (acc ++ [0x0A])
    else if e = 'r' then parseString rest (acc ++ [0x0D])
    else if e = 't' then parseString rest (acc ++ [0x09])
    else none
  | c :: rest, acc =>
    if c.toNat < 0x20 ∨ c = '\\' then none else parseString rest (acc ++ codeUnits c)

mutual
/-- One JSON value, with leading white space. -/
def parseValue : Nat → List Char → Option (JValue × List Char)
  | 0, _ => none
  | fuel + 1, cs =>
    match skipWhitespace cs with
    | 'n' :: 'u' :: 'l' :: 'l' :: rest => some (.null, rest)
    | 't' :: 'r' :: 'u' :: 'e' :: rest => some (.bool true, rest)
    | 'f' :: 'a' :: 'l' :: 's' :: 'e' :: rest => some (.bool false, rest)
    | '"' :: rest => (parseString rest []).map (fun r => (.str r.1, r.2))
    | '[' :: rest =>
      match skipWhitespace rest with
      | ']' :: after => some (.arr [], after)
      | items => parseElements fuel items []
    | '{' :: rest =>
      match skipWhitespace rest with
      | '}' :: after => some (.obj [], after)
      | members => parseMembers fuel members []
    | other => (parseNumber other).map (fun r => (.num r.1, r.2))
/-- The elements of a non-empty array, after `[` or `,`. -/
def parseElements : Nat → List Char → List JValue → Option (JValue × List Char)
  | 0, _, _ => none
  | fuel + 1, cs, acc =>
    match parseValue fuel cs with
    | none => none
    | some (v, rest) =>
      match skipWhitespace rest with
      | ',' :: more => parseElements fuel more (acc ++ [v])
      | ']' :: after => some (.arr (acc ++ [v]), after)
      | _ => none
/-- The members of a non-empty object, after `{` or `,`. -/
def parseMembers : Nat → List Char → List (JSString × JValue) → Option (JValue × List Char)
  | 0, _, _ => none
  | fuel + 1, cs, acc =>
    match skipWhitespace cs with
    | '"' :: rest =>
      match parseString rest [] with
      | none => none
      | some (key, afterKey) =>
        match skipWhitespace afterKey with
        | ':' :: valueText =>
          match parseValue fuel valueText with
          | none => none
          | some (v, afterValue) =>
            match skipWhitespace afterValue with
            | ',' :: more => parseMembers fuel more (acc ++ [(key, v)])
            | '}' :: after => some (.obj (acc ++ [(key, v)]), after)
            | _ => none
        | _ => none
    | _ => none
end

/-- `JSON.parse(text)`: the value the text denotes, or a `SyntaxError` when the
text is not one JSON value surrounded by optional white space. -/
def parse (text : String) : Except JSError JValue :=
  match parseValue (2 * text.length + 2) text.toList with
  | some (v, rest) => if skipWhitespace rest = [] then .ok v else .error .SyntaxError
  | none => .error .SyntaxError

end JSON

/-! ## Component state -/

/-- One chart point, `{ value, time }`. -/
structure Point where
  value : JSValue
  time : JSValue

/-- The state held by `React.useState`: one series per channel. -/
structure ChartData where
  cun : List Point
  guan : List Point
  chi : List Point

/-- The initial state passed to `React.useState`. -/
def initialChartData : ChartData :=
  { cun := [], guan := [], chi := [] }

/-- The updater passed to `setChartData`, closed over the parsed `data`:
`prevData => ({ cun: [...prevData.cun, { value: data.cun, time: data.timestamp }], ... })`.
Property reads happen in source order; the first one that raises aborts the
updater. -/
def updater (data : JValue) (prevData : ChartData) : Except JSError ChartData := do
  let cunValue ← getField data .cun
  let cunTime ← getField data .timestamp
  let cun := prevData.cun ++ [{ value := cunValue, time := cunTime }]
  let guanValue ← getField data .guan
  let guanTime ← getField data .timestamp
  let guan := prevData.guan ++ [{ value := guanValue, time := guanTime }]
  let chiValue ← getField data .chi
  let chiTime ← getField data .timestamp
  let chi := prevData.chi ++ [{ value := chiValue, time := chiTime }]
  pure { cun := cun, guan := guan, chi := chi }

/-- The call `setChartData(f)` made by a handler. -/
structure SetChartData where
  f : ChartData → Except JSError ChartData

/-- The `ws.onmessage` handler, over the `JSON.parse` of the run-time:
`const data = JSON.parse(event.data); setChartData(prevData => ...)`.
It either raises what `JSON.parse` raised, having called nothing, or returns
after one call of `setChartData`. -/
def onmessage (parse : String → Except JSError JValue) (eventData : String) :
    Except JSError SetChartData := do
  let data ← parse eventData
  pure { f := updater data }

/-- What one delivered message does to the component. -/
inductive Outcome where
  /-- The handler raised; `setChartData` was not called. -/
  | handlerRaised (e : JSError)
  /-- The handler returned; the updater raised when React ran it. -/
  | updaterRaised (e : JSError)
  /-- The handler returned and the updater produced the next state. -/
  | committed (next : ChartData)

/-- Deliver one message: run the handler, then let React run the updater it
queued on the previous state. -/
def dispatch (parse : String → Except JSError JValue) (eventData : String)
    (prevData : ChartData) : Outcome :=
  match onmessage parse eventData with
  | .error e => .handlerRaised e
  | .ok call =>
    match call.f prevData with
    | .error e => .updaterRaised e
    | .ok next => .committed next

/-! ## The WebSocket and the effect -/

/-- The `readyState` of a WebSocket. -/
inductive ReadyState where
  | CONNECTING
  | OPEN
  | CLOSING
  | CLOSED
  deriving DecidableEq, Repr

/-- The ready state after the closing steps of `WebSocket.close`: a
connecting or open socket starts closing, a closing or closed one is left
alone. -/
def WebSocket.closing : ReadyState → ReadyState
  | .CONNECTING => .CLOSING
  | .OPEN => .CLOSING
  | .CLOSING => .CLOSING
  | .CLOSED => .CLOSED

/-- The method `WebSocket.close(code, reason)` of the run-time, on the ready
state. A code other than 1000 or 3000..4999 raises `InvalidAccessError`, a
reason longer than 123 bytes raises `SyntaxError`; otherwise the closing steps
run. -/
def WebSocket.close (code : Option Nat) (reason : Option String) (readyState : ReadyState) :
    Except JSError ReadyState :=
  let codeAccepted : Bool :=
    match code with
    | some c => c = 1000 || (3000 ≤ c && c ≤ 4999)
    | none => true
  let reasonAccepted : Bool :=
    match reason with
    | some r => r.utf8ByteSize ≤ 123
    | none => true
  if !codeAccepted then .error .InvalidAccessError
  else if !reasonAccepted then .error .SyntaxError
  else .ok (WebSocket.closing readyState)

/-- The cleanup returned by the effect: `() => { ws.close(); }`. -/
def cleanup (ws : ReadyState) : Except JSError ReadyState :=
  WebSocket.close none none ws

/-- One instance of the view: the React state, the socket of its effect, and
counts of the `new WebSocket` and `ws.close()` calls made so far. -/
structure View where
  active : Bool
  chartData : ChartData
  ws : ReadyState
  connectionsOpened : Nat
  closeCalls : Nat

/-- The setup of the effect, `const ws = new WebSocket(...)`, with the state
the view holds and the counts of calls so far: one more socket is constructed,
and it starts connecting. -/
def View.setup (chartData : ChartData) (connectionsOpened closeCalls : Nat) : View :=
  { active := true
    chartData := chartData
    ws := .CONNECTING
    connectionsOpened := connectionsOpened + 1
    closeCalls := closeCalls }

/-- Mounting: `useState` takes its initial value and the setup of the effect
runs, nothing having been constructed or closed before. -/
def View.mount : View :=
  View.setup initialChartData 0 0

/-- The dependency list passed to `React.useEffect` as its second argument,
`[]`, the same at every render. Dependencies are compared by identity, shown
here as numbers. -/
def effectDeps : Option (List Nat) :=
  some []

/-- The rule of React after a render that is not the first: an effect without
a dependency list runs again, an effect with one runs again when the list
differs from that of the previous render. -/
def React.effectRunsAgain (previous current : Option (List Nat)) : Bool :=
  match previous, current with
  | some p, some c => p != c
  | _, _ => true

/-- Run the effect cleanup on a view. -/
def View.runCleanup (v : View) : Except JSError View := do
  let ws ← cleanup v.ws
  pure { v with ws := ws, closeCalls := v.closeCalls + 1 }

/-- React removes the view: the cleanup of the effect runs, once, if the view
is still there. -/
def View.unmount (v : View) : View :=
  if v.active then
    match v.runCleanup with
    | .ok closed => { closed with active := false }
    | .error _ => { v with active := false }
  else v

/-- What the transport can do to the socket. -/
inductive Transport where
  /-- The connection is established. -/
  | established
  /-- A text message arrives. -/
  | message (text : String)
  /-- The connection ends (closing handshake done, or the connection lost). -/
  | ended

/-- React renders the view again after a state update: when the rule says the
effect runs again, its cleanup runs and then its setup; otherwise the socket
is left as it is. -/
def View.rerender (v : View) : View :=
  if React.effectRunsAgain effectDeps effectDeps then
    match v.runCleanup with
    | .ok closed => View.setup closed.chartData closed.connectionsOpened closed.closeCalls
    | .error _ => View.setup v.chartData v.connectionsOpened v.closeCalls
  else v

/-- One transport event on a view. A message reaches `ws.onmessage` only
while the socket is open. An exception out of the handler is reported by the
run-time and changes nothing. An exception out of the updater is raised while
React renders; there is no error boundary, so React removes the view. A state
the updater returns is committed and the view renders again. -/
def View.transport (parse : String → Except JSError JValue) (v : View) : Transport → View
  | .established => if v.ws = .CONNECTING then { v with ws := .OPEN } else v
  | .ended => { v with ws := .CLOSED }
  | .message text =>
    if v.ws = .OPEN then
      match onmessage parse text with
      | .error _ => v
      | .ok call =>
        if v.active then
          match call.f v.chartData with
          | .error _ => v.unmount
          | .ok next => View.rerender { v with chartData := next }
        else v
    else v

/-- A view after a run of transport events. -/
def View.run (parse : String → Except JSError JValue) (v : View) (events : List Transport) : View :=
  events.foldl (View.transport parse) v

/-- The state after delivering messages in order to the handler, from
`prevData`: a message whose handler raises changes nothing, a message whose
updater raises ends the run with that error. -/
def deliverAll (parse : String → Except JSError JValue) :
    ChartData → List String → Except JSError ChartData
  | prevData, [] => .ok prevData
  | prevData, text :: rest =>
    match dispatch parse text prevData with
    | .handlerRaised _ => deliverAll parse prevData rest
    | .updaterRaised e => .error e
    | .committed next => deliverAll parse next rest

/-! ## Rendering -/

/-- An axis title, `{ text }`. -/
structure AxisTitle where
  text : String
  deriving DecidableEq, Repr

/-- The `xAxis` option. -/
structure XAxis where
  type : String
  boundaryGap : Nat
  title : AxisTitle
  nice : Bool
  min : Int
  max : Int
  deriving DecidableEq, Repr

/-- The `yAxis` option. -/
structure YAxis where
  title : AxisTitle
  deriving DecidableEq, Repr

/-- The shape of the `config` object. -/
structure Config where
  height : Nat
  xField : String
  yField : String
  smooth : Bool
  animation : Bool
  xAxis : XAxis
  yAxis : YAxis
  deriving DecidableEq, Repr

/-- The `config` object built in the body of `App`. -/
def config : Config :=
  { height := 200
    xField := "time"
    yField := "value"
    smooth := true
    animation := false
    xAxis :=
      { type := "time"
        boundaryGap := 0
        title := { text := "时间 (秒)" }
        nice := true
        min := 0
        max := 10 }
    yAxis := { title := { text := "脉搏强度" } } }

/-- The props of `<LineChart {...config} data={...} />`. -/
structure LineChartProps extends Config where
  data : List Point

/-- A prop value of the other elements. -/
inductive PropValue where
  | text (s : String)
  | texts (ss : List String)
  | number (n : Nat)
  | style (entries : List (String × String))
  deriving DecidableEq, Repr

/-- The element tree `App` returns. -/
inductive Element where
  | text (s : String)
  | node (tag : String) (props : List (String × PropValue)) (children : List Element)
  | lineChart (props : LineChartProps)

/-- The return value of `App` for the current state. -/
def render (chartData : ChartData) : Element :=
  .node "Layout" [("className", .text "layout")] [
    .node "Header" [] [
      .node "div" [("className", .text "logo")] [],
      .node "Menu" [("theme", .text "dark"), ("mode", .text "horizontal"),
          ("defaultSelectedKeys", .texts ["1"])] [
        .node "Menu.Item" [("key", .text "1")] [.text "实时监测"],
        .node "Menu.Item" [("key", .text "2")] [.text "数据分析"],
        .node "Menu.Item" [("key", .text "3")] [.text "历史记录"]]],
    .node "Content" [("style", .style [("padding", "0 50px")])] [
      .node "div" [("className", .text "site-layout-content")] [
        .node "Title" [("level", .number 2)] [.text "寸关尺部脉搏实时监测"],
        .node "div" [("className", .text "chart-container")] [
          .node "Title" [("level", .number 4)] [.text "寸"],
          .lineChart { toConfig := config, data := chartData.cun }],
        .node "div" [("className", .text "chart-container")] [
          .node "Title" [("level", .number 4)] [.text "关部数据"],
          .lineChart { toConfig := config, data := chartData.guan }],
        .node "div" [("className", .text "chart-container")] [
          .node "Title" [("level", .number 4)] [.text "尺部数据"],
          .lineChart { toConfig := config, data := chartData.chi }]]],
    .node "Footer" [("style", .style [("textAlign", "center")])] [
      .text "寸关尺部脉搏监测系统 ©2024"]]

mutual
/-- The props of the chart widgets in an element, in document order. -/
def Element.charts : Element → List LineChartProps
  | .text _ => []
  | .lineChart props => [props]
  | .node _ _ children => Element.chartsOfList children
/-- The props of the chart widgets in a list of elements, in document order. -/
def Element.chartsOfList : List Element → List LineChartProps
  | [] => []
  | e :: es => e.charts ++ Element.chartsOfList es
end

/-! ## Samples and reachable states -/

/-- A Sample of the feed: one number per channel and a timestamp. -/
structure Sample where
  cun : JNumber
  guan : JNumber
  chi : JNumber
  timestamp : JNumber

/-- The number a Sample carries for a field. -/
def Sample.get (s : Sample) : Field → JNumber
  | .cun => s.cun
  | .guan => s.guan
  | .chi => s.chi
  | .timestamp => s.timestamp

/-- The four members of the wire object of a Sample. -/
def Sample.members (s : Sample) : List (JSString × JValue) :=
  [(Field.cun.key, .num s.cun), (Field.guan.key, .num s.guan), (Field.chi.key, .num s.chi),
    (Field.timestamp.key, .num s.timestamp)]

/-- A parsed message is the valid wire object of the Sample `s`: an object
with exactly the four numeric fields, in any order. -/
def IsSample (data : JValue) (s : Sample) : Prop :=
  ∃ members, data = .obj members ∧ members.Perm s.members

/-- The point the handler stores for a channel of a Sample. -/
def Sample.point (s : Sample) (f : Field) : Point :=
  { value := .json (.num (s.get f)), time := .json (.num s.timestamp) }

/-- The states the view can hold: the initial one, and any state committed by
delivering a message in a state it can hold. -/
inductive Reachable (parse : String → Except JSError JValue) : ChartData → Prop where
  | initial : Reachable parse initialChartData
  | update (prevData next : ChartData) (eventData : String) :
      Reachable parse prevData → dispatch parse eventData prevData = .committed next →
      Reachable parse next

/-- Whether a message text parses to a value other than `null`. -/
def parsesToNonNull (parse : String → Except JSError JValue) (eventData : String) : Bool :=
  match parse eventData with
  | .ok .null => false
  | .ok _ => true
  | .error _ => false

/-- What holds of a view at every moment of its life: one socket was
constructed; `ws.close()` was not called while the view is there, and was
called once, leaving the socket neither connecting nor open, when it is
gone. -/
def View.Lifecycle (v : View) : Prop :=
  v.connectionsOpened = 1 ∧
    (v.active = true → v.closeCalls = 0) ∧
    (v.active = false → v.closeCalls = 1 ∧ v.ws ≠ .OPEN ∧ v.ws ≠ .CONNECTING)

/-! ## Concrete messages used to exercise the statements -/

/-- First message of the two-sample scenario. -/
def firstText : String :=
  "\x7b\"cun\":1,\"guan\":2,\"chi\":3,\"timestamp\":0\x7d"

/-- Second message of the two-sample scenario. -/
def secondText : String :=
  "\x7b\"cun\":4,\"guan\":5,\"chi\":6,\"timestamp\":1\x7d"

/-- The whole number `n` as `JSON.parse` reads it. -/
def whole (n : Nat) : JNumber :=
  { negative := false, digits := n, exponent := 0 }

/-- First Sample of the two-sample scenario. -/
def firstSample : Sample :=
  { cun := whole 1, guan := whole 2, chi := whole 3, timestamp := whole 0 }

/-- Second Sample of the two-sample scenario. -/
def secondSample : Sample :=
  { cun := whole 4, guan := whole 5, chi := whole 6, timestamp := whole 1 }

/-- The state after the first Sample of the scenario. -/
def afterFirst : ChartData :=
  { cun := [firstSample.point .cun]
    guan := [firstSample.point .guan]
    chi := [firstSample.point .chi] }

/-- A message text that is not JSON. -/
def malformedText : String :=
  "not json"

/-- A message text that is JSON but no Sample: an array. -/
def arrayText : String :=
  "[true]"

/-- The four property names the handler reads. -/
def fieldKeys : List JSString :=
  [Field.cun.key, Field.guan.key, Field.chi.key, Field.timestamp.key]

/-! ## Lemmas on the updater and on property reads -/

theorem getField_of_ne_null (data : JValue) (f : Field) (h : data ≠ .null) :
    getField data f = .ok (data.field f) := by
  cases data <;> first | exact absurd rfl h | rfl

theorem updater_of_ne_null (data : JValue) (prevData : ChartData) (h : data ≠ .null) :
    updater data prevData = .ok
      { cun := prevData.cun ++ [{ value := data.field .cun, time := data.field .timestamp }]
        guan := prevData.guan ++ [{ value := data.field .guan, time := data.field .timestamp }]
        chi := prevData.chi ++ [{ value := data.field .chi, time := data.field .timestamp }] } := by
  simp only [updater, getField_of_ne_null data _ h]
  rfl

theorem updater_null (prevData : ChartData) : updater .null prevData = .error .TypeError := rfl

theorem dispatch_of_parse_error (parse : String → Except JSError JValue) (eventData : String)
    (e : JSError) (prevData : ChartData) (h : parse eventData = .error e) :
    dispatch parse eventData prevData = .handlerRaised e := by
  simp only [dispatch, onmessage, h]
  rfl

theorem dispatch_of_parse_ok (parse : String → Except JSError JValue) (eventData : String)
    (data : JValue) (prevData : ChartData) (h : parse eventData = .ok data) :
    dispatch parse eventData prevData =
      match updater data prevData with
      | .error e => .updaterRaised e
      | .ok next => .committed next := by
  simp only [dispatch, onmessage, h]
  rfl

theorem dispatch_of_ne_null (parse : String → Except JSError JValue) (eventData : String)
    (data : JValue) (prevData : ChartData) (h : parse eventData = .ok data) (hnn : data ≠ .null) :
    dispatch parse eventData prevData = .committed
      { cun := prevData.cun ++ [{ value := data.field .cun, time := data.field .timestamp }]
        guan := prevData.guan ++ [{ value := data.field .guan, time := data.field .timestamp }]
        chi := prevData.chi ++ [{ value := data.field .chi, time := data.field .timestamp }] } := by
  rw [dispatch_of_parse_ok parse eventData data prevData h, updater_of_ne_null data prevData hnn]

theorem dispatch_of_null (parse : String → Except JSError JValue) (eventData : String)
    (prevData : ChartData) (h : parse eventData = .ok .null) :
    dispatch parse eventData prevData = .updaterRaised .TypeError := by
  rw [dispatch_of_parse_ok parse eventData .null prevData h, updater_null]

theorem ownProperty_append (members : List (JSString × JValue)) (kv : JSString × JValue)
    (key : JSString) :
    ownProperty (members ++ [kv]) key =
      if kv.1 = key then JSValue.json kv.2 else ownProperty members key := by
  simp [ownProperty, List.foldl_append]

theorem ownProperty_of_absent (members : List (JSString × JValue)) (key : JSString)
    (h : ∀ kv ∈ members, kv.1 ≠ key) : ownProperty members key = .undefined := by
  induction members using List.reverseRecOn with
  | nil => rfl
  | append_singleton l a ih =>
    rw [ownProperty_append, if_neg (h a (by simp))]
    exact ih (fun kv hkv => h kv (by simp [hkv]))

theorem ownProperty_of_mem (members : List (JSString × JValue)) (key : JSString) (v : JValue)
    (hnd : (members.map Prod.fst).Nodup) (hmem : (key, v) ∈ members) :
    ownProperty members key = .json v := by
  induction members using List.reverseRecOn with
  | nil => simp at hmem
  | append_singleton l a ih =>
    rw [ownProperty_append]
    rw [List.map_append, List.nodup_append] at hnd
    obtain ⟨hl, -, hdis⟩ := hnd
    rcases List.mem_append.mp hmem with hin | hin
    · have hne : a.1 ≠ key := by
        intro heq
        exact hdis (List.mem_map.mpr ⟨(key, v), hin, rfl⟩) (by simp [heq])
      rw [if_neg hne]
      exact ih hl hin
    · have hkv : (key, v) = a := by simpa using hin
      subst hkv
      simp

theorem Field.key_injective (f g : Field) (h : f.key = g.key) : f = g := by
  cases f <;> cases g <;> first | rfl | (exact absurd h (by decide))

theorem Sample.members_nodup (s : Sample) : (s.members.map Prod.fst).Nodup := by
  simp only [Sample.members, List.map]
  decide

theorem Sample.mem_members (s : Sample) (f : Field) : (f.key, JValue.num (s.get f)) ∈ s.members := by
  cases f <;> simp [Sample.members, Sample.get]

theorem IsSample.field (data : JValue) (s : Sample) (h : IsSample data s) (f : Field) :
    data.field f = .json (.num (s.get f)) := by
  obtain ⟨members, rfl, hperm⟩ := h
  show ownProperty members f.key = _
  apply ownProperty_of_mem
  · exact (hperm.map Prod.fst).nodup_iff.mpr s.members_nodup
  · exact hperm.mem_iff.mpr (s.mem_members f)

theorem IsSample.ne_null (data : JValue) (s : Sample) (h : IsSample data s) : data ≠ .null := by
  obtain ⟨members, rfl, -⟩ := h
  intro hc
  cases hc

theorem dispatch_committed (parse : String → Except JSError JValue) (eventData : String)
    (prevData next : ChartData) (h : dispatch parse eventData prevData = .committed next) :
    ∃ data, parse eventData = .ok data ∧ data ≠ .null ∧ next =
      { cun := prevData.cun ++ [{ value := data.field .cun, time := data.field .timestamp }]
        guan := prevData.guan ++ [{ value := data.field .guan, time := data.field .timestamp }]
        chi := prevData.chi ++ [{ value := data.field .chi, time := data.field .timestamp }] } := by
  cases hp : parse eventData with
  | error e =>
    rw [dispatch_of_parse_error parse eventData e prevData hp] at h
    cases h
  | ok data =>
    by_cases hnull : data = .null
    · subst hnull
      rw [dispatch_of_null parse eventData prevData hp] at h
      cases h
    · rw [dispatch_of_ne_null parse eventData data prevData hp hnull] at h
      exact ⟨data, rfl, hnull, (Outcome.committed.inj h).symm⟩

theorem deliverAll_samples (parse : String → Except JSError JValue) (msgs : List String)
    (samples : List Sample)
    (h : List.Forall₂ (fun m s => ∃ data, parse m = .ok data ∧ IsSample data s) msgs samples)
    (prevData : ChartData) :
    deliverAll parse prevData msgs = .ok
      { cun := prevData.cun ++ samples.map (fun s => s.point .cun)
        guan := prevData.guan ++ samples.map (fun s => s.point .guan)
        chi := prevData.chi ++ samples.map (fun s => s.point .chi) } := by
  induction h generalizing prevData with
  | nil => simp [deliverAll]
  | cons hhead _ ih =>
    obtain ⟨data, hparse, hsample⟩ := hhead
    rw [deliverAll, dispatch_of_ne_null parse _ data prevData hparse (hsample.ne_null)]
    simp only [ih, hsample.field, Sample.point, Sample.get, List.map_cons, List.append_assoc,
      List.singleton_append]

theorem reachable_times (parse : String → Except JSError JValue) (s : ChartData)
    (h : Reachable parse s) :
    s.cun.map Point.time = s.guan.map Point.time ∧ s.guan.map Point.time = s.chi.map Point.time := by
  induction h with
  | initial => exact ⟨rfl, rfl⟩
  | update prevData next eventData _ hstep ih =>
    obtain ⟨data, -, -, rfl⟩ := dispatch_committed parse eventData prevData next hstep
    simp only [List.map_append, List.map_cons, List.map_nil, ih.1, ih.2, and_self]

/-! ## The claims -/

/-- C1: N valid Samples delivered in order to the handler from the initial
state are all processed, each series then has exactly N points, and point i of
a series holds the channel value and the timestamp of Sample i, in arrival
order whatever the timestamps are. -/
theorem samples_fill_series (parse : String → Except JSError JValue) (msgs : List String)
    (samples : List Sample)
    (h : List.Forall₂ (fun m s => ∃ data, parse m = .ok data ∧ IsSample data s) msgs samples) :
    ∃ st, deliverAll parse initialChartData msgs = .ok st ∧
      st.cun.length = samples.length ∧ st.guan.length = samples.length ∧
      st.chi.length = samples.length ∧
      ∀ i (hi : i < samples.length),
        st.cun[i]? = some { value := .json (.num samples[i].cun),
                            time := .json (.num samples[i].timestamp) } ∧
        st.guan[i]? = some { value := .json (.num samples[i].guan),
                             time := .json (.num samples[i].timestamp) } ∧
        st.chi[i]? = some { value := .json (.num samples[i].chi),
                            time := .json (.num samples[i].timestamp) } := by
  refine ⟨_, deliverAll_samples parse msgs samples h initialChartData, ?_, ?_, ?_, ?_⟩
  · simp [initialChartData]
  · simp [initialChartData]
  · simp [initialChartData]
  · intro i hi
    simp [initialChartData, List.getElem?_map, List.getElem?_eq_getElem hi, Sample.point,
      Sample.get]

/-- The two-sample scenario satisfies the hypothesis of `samples_fill_series`
under the modelled `JSON.parse`. -/
theorem samples_fill_series_witness :
    List.Forall₂ (fun m s => ∃ data, JSON.parse m = .ok data ∧ IsSample data s)
        [firstText, secondText] [firstSample, secondSample] ∧
      ∃ st, deliverAll JSON.parse initialChartData [firstText, secondText] = .ok st ∧
        st.cun.length = [firstSample, secondSample].length ∧
        st.guan.length = [firstSample, secondSample].length ∧
        st.chi.length = [firstSample, secondSample].length ∧
        ∀ i (hi : i < [firstSample, secondSample].length),
          st.cun[i]? = some { value := .json (.num [firstSample, secondSample][i].cun),
                              time := .json (.num [firstSample, secondSample][i].timestamp) } ∧
          st.guan[i]? = some { value := .json (.num [firstSample, secondSample][i].guan),
                               time := .json (.num [firstSample, secondSample][i].timestamp) } ∧
          st.chi[i]? = some { value := .json (.num [firstSample, secondSample][i].chi),
                              time := .json (.num [firstSample, secondSample][i].timestamp) } :=
  have hyp : List.Forall₂ (fun m s => ∃ data, JSON.parse m = .ok data ∧ IsSample data s)
      [firstText, secondText] [firstSample, secondSample] :=
    .cons ⟨.obj firstSample.members, rfl, _, rfl, List.Perm.refl _⟩
      (.cons ⟨.obj secondSample.members, rfl, _, rfl, List.Perm.refl _⟩ .nil)
  ⟨hyp, samples_fill_series JSON.parse _ _ hyp⟩

/-- The two-sample scenario, evaluated: the series are
cun = [(0,1),(1,4)], guan = [(0,2),(1,5)], chi = [(0,3),(1,6)] as (time, value). -/
theorem scenario_two_samples :
    deliverAll JSON.parse initialChartData [firstText, secondText] = .ok
      { cun := [{ value := .json (.num (whole 1)), time := .json (.num (whole 0)) },
                { value := .json (.num (whole 4)), time := .json (.num (whole 1)) }]
        guan := [{ value := .json (.num (whole 2)), time := .json (.num (whole 0)) },
                 { value := .json (.num (whole 5)), time := .json (.num (whole 1)) }]
        chi := [{ value := .json (.num (whole 3)), time := .json (.num (whole 0)) },
                { value := .json (.num (whole 6)), time := .json (.num (whole 1)) }] } := by
  rfl

/-- C2: in every state reachable from the initial state by handler updates the
three series have equal length, and at every index the three points carry the
same time. -/
theorem reachable_series_aligned (parse : String → Except JSError JValue) (s : ChartData)
    (h : Reachable parse s) :
    s.cun.length = s.guan.length ∧ s.guan.length = s.chi.length ∧
      ∀ i : Nat, (s.cun[i]?).map Point.time = (s.guan[i]?).map Point.time ∧
        (s.guan[i]?).map Point.time = (s.chi[i]?).map Point.time := by
  obtain ⟨h1, h2⟩ := reachable_times parse s h
  refine ⟨?_, ?_, ?_⟩
  · simpa using congrArg List.length h1
  · simpa using congrArg List.length h2
  · intro i
    rw [← List.getElem?_map, ← List.getElem?_map, ← List.getElem?_map, h1, h2]
    exact ⟨rfl, rfl⟩

/-- The state after the first scenario message is reachable, and aligned. -/
theorem reachable_series_aligned_witness :
    Reachable JSON.parse afterFirst ∧
      (afterFirst.cun.length = afterFirst.guan.length ∧
        afterFirst.guan.length = afterFirst.chi.length ∧
        ∀ i : Nat, (afterFirst.cun[i]?).map Point.time = (afterFirst.guan[i]?).map Point.time ∧
          (afterFirst.guan[i]?).map Point.time = (afterFirst.chi[i]?).map Point.time) :=
  have hyp : Reachable JSON.parse afterFirst :=
    .update initialChartData afterFirst firstText .initial rfl
  ⟨hyp, reachable_series_aligned JSON.parse afterFirst hyp⟩

/-- C3: for every prior state and every message that parses to a value other
than `null` (every Sample is one), the update produces a state in which each
series is the prior series followed by exactly one new point: the length grows
by one and every prior point stays at its index. -/
theorem update_appends_one_point (parse : String → Except JSError JValue) (eventData : String)
    (data : JValue) (prevData : ChartData) (hparse : parse eventData = .ok data)
    (hnn : data ≠ .null) :
    ∃ next pc pg ph, dispatch parse eventData prevData = .committed next ∧
      next.cun = prevData.cun ++ [pc] ∧ next.guan = prevData.guan ++ [pg] ∧
      next.chi = prevData.chi ++ [ph] ∧
      next.cun.length = prevData.cun.length + 1 ∧
      next.guan.length = prevData.guan.length + 1 ∧
      next.chi.length = prevData.chi.length + 1 ∧
      (∀ i : Nat, i < prevData.cun.length → next.cun[i]? = prevData.cun[i]?) ∧
      (∀ i : Nat, i < prevData.guan.length → next.guan[i]? = prevData.guan[i]?) ∧
      (∀ i : Nat, i < prevData.chi.length → next.chi[i]? = prevData.chi[i]?) := by
  refine ⟨_, _, _, _, dispatch_of_ne_null parse eventData data prevData hparse hnn,
    rfl, rfl, rfl, ?_, ?_, ?_, ?_, ?_, ?_⟩
  · simp
  · simp
  · simp
  · intro i hi
    exact List.getElem?_append_left hi
  · intro i hi
    exact List.getElem?_append_left hi
  · intro i hi
    exact List.getElem?_append_left hi

/-- The second scenario message, delivered in the state after the first. -/
theorem update_appends_one_point_witness :
    (JSON.parse secondText = .ok (.obj secondSample.members) ∧
      JValue.obj secondSample.members ≠ .null) ∧
    ∃ next pc pg ph, dispatch JSON.parse secondText afterFirst = .committed next ∧
      next.cun = afterFirst.cun ++ [pc] ∧ next.guan = afterFirst.guan ++ [pg] ∧
      next.chi = afterFirst.chi ++ [ph] ∧
      next.cun.length = afterFirst.cun.length + 1 ∧
      next.guan.length = afterFirst.guan.length + 1 ∧
      next.chi.length = afterFirst.chi.length + 1 ∧
      (∀ i : Nat, i < afterFirst.cun.length → next.cun[i]? = afterFirst.cun[i]?) ∧
      (∀ i : Nat, i < afterFirst.guan.length → next.guan[i]? = afterFirst.guan[i]?) ∧
      (∀ i : Nat, i < afterFirst.chi.length → next.chi[i]? = afterFirst.chi[i]?) :=
  ⟨⟨rfl, fun h => JValue.noConfusion h⟩,
    update_appends_one_point JSON.parse secondText (.obj secondSample.members) afterFirst rfl
      (fun h => JValue.noConfusion h)⟩

/-- C4: a message whose text does not parse makes the handler raise before
`setChartData` is called, so the series stay exactly as they were, in every
prior state; from the initial state they stay empty however often it happens. -/
theorem malformed_leaves_series (parse : String → Except JSError JValue) (eventData : String)
    (e : JSError) (h : parse eventData = .error e) :
    (∀ prevData, dispatch parse eventData prevData = .handlerRaised e) ∧
    (∀ prevData, deliverAll parse prevData [eventData] = .ok prevData) ∧
    (∀ v, View.transport parse v (.message eventData) = v) ∧
    (∀ n, deliverAll parse initialChartData (List.replicate n eventData) =
      .ok initialChartData) := by
  have hd := fun prevData => dispatch_of_parse_error parse eventData e prevData h
  refine ⟨hd, ?_, ?_, ?_⟩
  · intro prevData
    simp [deliverAll, hd]
  · intro v
    simp [View.transport, onmessage, h, bind, Except.bind]
  · intro n
    induction n with
    | zero => rfl
    | succ k ih => simp [List.replicate_succ, deliverAll, hd, ih]

/-- The text `not json` does not parse under the modelled `JSON.parse`. -/
theorem malformed_leaves_series_witness :
    JSON.parse malformedText = .error .SyntaxError ∧
    ((∀ prevData, dispatch JSON.parse malformedText prevData = .handlerRaised .SyntaxError) ∧
    (∀ prevData, deliverAll JSON.parse prevData [malformedText] = .ok prevData) ∧
    (∀ v, View.transport JSON.parse v (.message malformedText) = v) ∧
    (∀ n, deliverAll JSON.parse initialChartData (List.replicate n malformedText) =
      .ok initialChartData)) :=
  ⟨rfl, malformed_leaves_series JSON.parse malformedText .SyntaxError rfl⟩

/-- C5, as stated, fails: on the text `not json` the handler does not complete,
it raises the `SyntaxError` of `JSON.parse`. -/
theorem malformed_handler_does_not_complete :
    JSON.parse malformedText = .error .SyntaxError ∧
    onmessage JSON.parse malformedText = .error .SyntaxError ∧
    ¬ ∃ call, onmessage JSON.parse malformedText = .ok call := by
  refine ⟨rfl, rfl, ?_⟩
  rintro ⟨call, hcall⟩
  have hraise : onmessage JSON.parse malformedText = .error .SyntaxError := rfl
  rw [hraise] at hcall
  cases hcall

/-- C5, amended: for a message whose text does not parse, the handler does not
catch the failure; it raises the very error `JSON.parse` raised, and it does so
before `setChartData` is called. -/
theorem malformed_handler_raises (parse : String → Except JSError JValue) (eventData : String)
    (e : JSError) (h : parse eventData = .error e) :
    onmessage parse eventData = .error e ∧
    ∀ prevData, dispatch parse eventData prevData = .handlerRaised e := by
  refine ⟨?_, fun prevData => dispatch_of_parse_error parse eventData e prevData h⟩
  simp only [onmessage, h]
  rfl

/-- The text `not json` under the modelled `JSON.parse`. -/
theorem malformed_handler_raises_witness :
    JSON.parse malformedText = .error .SyntaxError ∧
    (onmessage JSON.parse malformedText = .error .SyntaxError ∧
      ∀ prevData, dispatch JSON.parse malformedText prevData = .handlerRaised .SyntaxError) :=
  ⟨rfl, malformed_handler_raises JSON.parse malformedText .SyntaxError rfl⟩

/-! ### Lifecycle -/

theorem View.runCleanup_eq (v : View) :
    v.runCleanup = .ok { v with ws := WebSocket.closing v.ws, closeCalls := v.closeCalls + 1 } := by
  rfl

theorem View.unmount_eq (v : View) :
    v.unmount =
      if v.active then
        { v with ws := WebSocket.closing v.ws, closeCalls := v.closeCalls + 1, active := false }
      else v := by
  simp only [View.unmount, View.runCleanup_eq]

theorem View.rerender_eq (v : View) : v.rerender = v := by
  simp [View.rerender, React.effectRunsAgain, effectDeps]

theorem View.lifecycle_mount : View.mount.Lifecycle := by
  simp [View.Lifecycle, View.mount, View.setup]

theorem View.lifecycle_unmount (v : View) (h : v.Lifecycle) :
    v.unmount.Lifecycle ∧ v.unmount.active = false ∧ v.unmount.chartData = v.chartData := by
  obtain ⟨h1, h2, h3⟩ := h
  rw [View.unmount_eq]
  by_cases hact : v.active = true
  · rw [if_pos hact]
    refine ⟨⟨h1, fun hc => Bool.noConfusion hc, fun _ => ⟨?_, ?_, ?_⟩⟩, rfl, rfl⟩
    · show v.closeCalls + 1 = 1
      rw [h2 hact]
    · show WebSocket.closing v.ws ≠ .OPEN
      cases v.ws <;> simp [WebSocket.closing]
    · show WebSocket.closing v.ws ≠ .CONNECTING
      cases v.ws <;> simp [WebSocket.closing]
  · rw [if_neg hact]
    exact ⟨⟨h1, h2, h3⟩, by simpa using hact, rfl⟩

theorem View.lifecycle_transport (parse : String → Except JSError JValue) (v : View)
    (ev : Transport) (h : v.Lifecycle) : (View.transport parse v ev).Lifecycle := by
  cases ev with
  | established =>
    simp only [View.transport]
    split
    · rename_i hws
      obtain ⟨h1, h2, h3⟩ := h
      refine ⟨h1, h2, fun hc => ?_⟩
      exact absurd hws (h3 hc).2.2
    · exact h
  | ended =>
    obtain ⟨h1, h2, h3⟩ := h
    exact ⟨h1, h2, fun hc => ⟨(h3 hc).1, by simp [View.transport], by simp [View.transport]⟩⟩
  | message text =>
    simp only [View.transport, View.rerender_eq]
    split
    · split
      · exact h
      · split
        · split
          · exact (View.lifecycle_unmount v h).1
          · rename_i hact _ _ _
            obtain ⟨h1, h2, h3⟩ := h
            exact ⟨h1, h2, fun hc => by simp [hact] at hc⟩
        · exact h
    · exact h

theorem View.transport_gone (parse : String → Except JSError JValue) (v : View)
    (ev : Transport) (h : v.active = false) :
    (View.transport parse v ev).active = false ∧
      (View.transport parse v ev).chartData = v.chartData := by
  cases ev with
  | established =>
    simp only [View.transport]
    split <;> exact ⟨h, rfl⟩
  | ended => exact ⟨h, rfl⟩
  | message text =>
    simp only [View.transport, h]
    split
    · split <;> exact ⟨h, rfl⟩
    · exact ⟨h, rfl⟩

theorem View.lifecycle_run (parse : String → Except JSError JValue) (events : List Transport)
    (v : View) (h : v.Lifecycle) : (View.run parse v events).Lifecycle := by
  induction events generalizing v with
  | nil => exact h
  | cons ev rest ih => exact ih _ (View.lifecycle_transport parse v ev h)

theorem View.run_gone (parse : String → Except JSError JValue) (events : List Transport)
    (v : View) (h : v.active = false) :
    (View.run parse v events).active = false ∧
      (View.run parse v events).chartData = v.chartData := by
  induction events generalizing v with
  | nil => exact ⟨h, rfl⟩
  | cons ev rest ih =>
    obtain ⟨hact, hdata⟩ := View.transport_gone parse v ev h
    obtain ⟨hact2, hdata2⟩ := ih _ hact
    exact ⟨hact2, hdata2.trans hdata⟩

theorem ReadyState.closing_or_closed (ws : ReadyState) (hopen : ws ≠ .OPEN)
    (hconnecting : ws ≠ .CONNECTING) : ws = .CLOSING ∨ ws = .CLOSED := by
  cases ws
  · exact absurd rfl hconnecting
  · exact absurd rfl hopen
  · exact Or.inl rfl
  · exact Or.inr rfl

theorem View.unmount_ws (v : View) (hact : v.active = true) (hws : v.ws ≠ .CLOSED) :
    v.unmount.ws = .CLOSING := by
  rw [View.unmount_eq, if_pos hact]
  show WebSocket.closing v.ws = .CLOSING
  cases hv : v.ws with
  | CLOSED => exact absurd hv hws
  | _ => rfl

theorem onmessage_of_parse_ok (parse : String → Except JSError JValue) (eventData : String)
    (data : JValue) (h : parse eventData = .ok data) :
    onmessage parse eventData = .ok { f := updater data } := by
  simp only [onmessage, h]
  rfl

theorem onmessage_of_parse_error (parse : String → Except JSError JValue) (eventData : String)
    (e : JSError) (h : parse eventData = .error e) :
    onmessage parse eventData = .error e := by
  simp only [onmessage, h]
  rfl

theorem View.run_messages (parse : String → Except JSError JValue) (msgs : List String)
    (v : View) (st : ChartData) (hact : v.active = true) (hws : v.ws = .OPEN)
    (h : deliverAll parse v.chartData msgs = .ok st) :
    View.run parse v (msgs.map .message) = { v with chartData := st } := by
  induction msgs generalizing v with
  | nil =>
    cases h
    rfl
  | cons m rest ih =>
    rw [List.map_cons, View.run, List.foldl_cons]
    cases hp : parse m with
    | error e =>
      rw [deliverAll, dispatch_of_parse_error parse m e v.chartData hp] at h
      have hstep : View.transport parse v (.message m) = v := by
        simp [View.transport, onmessage_of_parse_error parse m e hp]
      rw [hstep]
      exact ih v hact hws h
    | ok data =>
      by_cases hnull : data = .null
      · subst hnull
        rw [deliverAll, dispatch_of_null parse m v.chartData hp] at h
        cases h
      · rw [deliverAll, dispatch_of_ne_null parse m data v.chartData hp hnull] at h
        have hstep : View.transport parse v (.message m) = { v with chartData :=
            { cun := v.chartData.cun ++
                [{ value := data.field .cun, time := data.field .timestamp }]
              guan := v.chartData.guan ++
                [{ value := data.field .guan, time := data.field .timestamp }]
              chi := v.chartData.chi ++
                [{ value := data.field .chi, time := data.field .timestamp }] } } := by
          simp [View.transport, onmessage_of_parse_ok parse m data hp, hws, hact,
            updater_of_ne_null data v.chartData hnull, View.rerender_eq]
        rw [hstep]
        exact ih _ hact hws h

theorem View.run_established_messages (parse : String → Except JSError JValue)
    (msgs : List String) (st : ChartData)
    (h : deliverAll parse initialChartData msgs = .ok st) :
    View.run parse View.mount (.established :: msgs.map .message) =
      { active := true, chartData := st, ws := .OPEN, connectionsOpened := 1, closeCalls := 0 } := by
  rw [View.run, List.foldl_cons]
  exact View.run_messages parse msgs
    { active := true, chartData := initialChartData, ws := .OPEN, connectionsOpened := 1,
      closeCalls := 0 } st rfl rfl h

/-- C6: for every run in which the view mounts, any transport events
(messages among them) happen, the view unmounts, and further transport events
happen. One socket is constructed, at mount, and none later (the effect does
not run again on a render). `ws.close()` is not called while the view is
there, has been called exactly once when it is gone, and is not called again.
That call takes the socket out of the connecting and open states for good: it
is closing or closed after unmount and after every later event. The series
after unmount and after every later event are the series the view held when
it was unmounted; and when the run before unmount is the connection being
established and then messages arriving, those are the series the messages
built. -/
theorem unmount_closes_once_and_freezes (parse : String → Except JSError JValue)
    (before later : List Transport) :
    (View.run parse View.mount before).connectionsOpened = 1 ∧
    ((View.run parse View.mount before).unmount).connectionsOpened = 1 ∧
    (View.run parse (View.run parse View.mount before).unmount later).connectionsOpened = 1 ∧
    ((View.run parse View.mount before).active = true →
      (View.run parse View.mount before).closeCalls = 0) ∧
    ((View.run parse View.mount before).unmount).closeCalls = 1 ∧
    (View.run parse (View.run parse View.mount before).unmount later).closeCalls = 1 ∧
    ((View.run parse View.mount before).active = true →
      (View.run parse View.mount before).ws ≠ .CLOSED →
      ((View.run parse View.mount before).unmount).ws = .CLOSING) ∧
    (((View.run parse View.mount before).unmount).ws = .CLOSING ∨
      ((View.run parse View.mount before).unmount).ws = .CLOSED) ∧
    ((View.run parse (View.run parse View.mount before).unmount later).ws = .CLOSING ∨
      (View.run parse (View.run parse View.mount before).unmount later).ws = .CLOSED) ∧
    ((View.run parse View.mount before).unmount).active = false ∧
    (View.run parse (View.run parse View.mount before).unmount later).active = false ∧
    ((View.run parse View.mount before).unmount).chartData =
      (View.run parse View.mount before).chartData ∧
    (View.run parse (View.run parse View.mount before).unmount later).chartData =
      (View.run parse View.mount before).chartData ∧
    (∀ msgs st, deliverAll parse initialChartData msgs = .ok st →
      (View.run parse View.mount (.established :: msgs.map .message)).chartData = st ∧
      (View.run parse View.mount (.established :: msgs.map .message)).ws = .OPEN ∧
      ((View.run parse View.mount (.established :: msgs.map .message)).unmount).ws = .CLOSING ∧
      ((View.run parse View.mount (.established :: msgs.map .message)).unmount).closeCalls = 1 ∧
      (View.run parse (View.run parse View.mount (.established :: msgs.map .message)).unmount
        later).chartData = st) := by
  have hrun := View.lifecycle_run parse before View.mount View.lifecycle_mount
  obtain ⟨hlife, hgone, hkept⟩ := View.lifecycle_unmount _ hrun
  have hlater := View.lifecycle_run parse later _ hlife
  obtain ⟨hgone2, hdata⟩ := View.run_gone parse later _ hgone
  refine ⟨hrun.1, hlife.1, hlater.1, hrun.2.1, (hlife.2.2 hgone).1, (hlater.2.2 hgone2).1,
    View.unmount_ws _, ?_, ?_, hgone, hgone2, hkept, hdata.trans hkept, ?_⟩
  · exact ReadyState.closing_or_closed _ (hlife.2.2 hgone).2.1 (hlife.2.2 hgone).2.2
  · exact ReadyState.closing_or_closed _ (hlater.2.2 hgone2).2.1 (hlater.2.2 hgone2).2.2
  · intro msgs st hst
    rw [View.run_established_messages parse msgs st hst]
    refine ⟨rfl, rfl, rfl, rfl, ?_⟩
    exact (View.run_gone parse later _ rfl).2

/-- The third scenario, evaluated: the connection is established, the two
scenario messages arrive, the view unmounts, and a third message and the end
of the connection follow. One socket was constructed, `ws.close()` was called
once, the socket went from open to closing at unmount, and the series are
those of the two messages. -/
theorem scenario_unmount :
    (View.run JSON.parse View.mount
      [.established, .message firstText, .message secondText]).ws = .OPEN ∧
    ((View.run JSON.parse View.mount
      [.established, .message firstText, .message secondText]).unmount).ws = .CLOSING ∧
    (View.run JSON.parse (View.run JSON.parse View.mount
      [.established, .message firstText, .message secondText]).unmount
      [.message firstText]).ws = .CLOSING ∧
    (View.run JSON.parse (View.run JSON.parse View.mount
      [.established, .message firstText, .message secondText]).unmount
      [.message firstText, .ended]).ws = .CLOSED ∧
    (View.run JSON.parse (View.run JSON.parse View.mount
      [.established, .message firstText, .message secondText]).unmount
      [.message firstText, .ended]).connectionsOpened = 1 ∧
    (View.run JSON.parse (View.run JSON.parse View.mount
      [.established, .message firstText, .message secondText]).unmount
      [.message firstText, .ended]).closeCalls = 1 ∧
    (View.run JSON.parse (View.run JSON.parse View.mount
      [.established, .message firstText, .message secondText]).unmount
      [.message firstText, .ended]).chartData.cun =
        [firstSample.point .cun, secondSample.point .cun] := by
  refine ⟨rfl, rfl, rfl, rfl, rfl, rfl, rfl⟩

/-- C7: for every state, the three chart widgets of the rendered tree are, in
order, given the `cun`, `guan` and `chi` series as they are, each with the same
`config`, whose height is 200, horizontal axis of type time from 0 to 10,
smoothing on and animation off. -/
theorem render_passes_series (chartData : ChartData) :
    (render chartData).charts =
      [{ toConfig := config, data := chartData.cun },
       { toConfig := config, data := chartData.guan },
       { toConfig := config, data := chartData.chi }] ∧
    config.height = 200 ∧ config.xAxis.type = "time" ∧ config.xAxis.min = 0 ∧
    config.xAxis.max = 10 ∧ config.smooth = true ∧ config.animation = false := by
  refine ⟨?_, rfl, rfl, rfl, rfl, rfl, rfl⟩
  simp [render, Element.charts, Element.chartsOfList]

/-- C8: the effect cleanup never faults, and running it again, or on a socket
that is already closing or closed, leaves the ready state and the series as
the first run left them. -/
theorem cleanup_idempotent (v : View) :
    ∃ once twice, v.runCleanup = .ok once ∧ once.runCleanup = .ok twice ∧
      twice.ws = once.ws ∧ twice.chartData = once.chartData ∧ once.chartData = v.chartData ∧
      (v.ws = .CLOSED → once.ws = .CLOSED) ∧ (v.ws = .CLOSING → once.ws = .CLOSING) ∧
      v.unmount.unmount = v.unmount := by
  refine ⟨_, _, View.runCleanup_eq v, View.runCleanup_eq _, ?_, rfl, rfl, ?_, ?_, ?_⟩
  · show WebSocket.closing (WebSocket.closing v.ws) = WebSocket.closing v.ws
    cases v.ws <;> rfl
  · intro h
    show WebSocket.closing v.ws = .CLOSED
    rw [h]
    rfl
  · intro h
    show WebSocket.closing v.ws = .CLOSING
    rw [h]
    rfl
  · rw [View.unmount_eq v]
    cases hact : v.active with
    | false =>
      simp only [Bool.false_eq_true, if_false]
      rw [View.unmount_eq, hact]
      simp
    | true =>
      simp only [if_true]
      rw [View.unmount_eq]
      simp

/-! ### Messages that are not Samples -/

theorem ownProperty_filter (members : List (JSString × JValue)) (key : JSString)
    (p : JSString × JValue → Bool) (hp : ∀ kv, kv.1 = key → p kv = true) :
    ownProperty (members.filter p) key = ownProperty members key := by
  induction members using List.reverseRecOn with
  | nil => rfl
  | append_singleton l a ih =>
    rw [List.filter_append, ownProperty_append]
    cases hpa : p a with
    | true =>
      rw [List.filter_cons_of_pos hpa, List.filter_nil, ownProperty_append, ih]
    | false =>
      have hne : a.1 ≠ key := fun heq => by simp [hp a heq] at hpa
      rw [List.filter_cons_of_neg (by simp [hpa]), List.filter_nil, List.append_nil, if_neg hne, ih]

theorem Field.key_mem_fieldKeys (f : Field) : f.key ∈ fieldKeys := by
  cases f <;> simp [fieldKeys]

theorem parsesToNonNull_of_ne_null (parse : String → Except JSError JValue) (eventData : String)
    (data : JValue) (h : parse eventData = .ok data) (hnn : data ≠ .null) :
    parsesToNonNull parse eventData = true := by
  unfold parsesToNonNull
  rw [h]
  cases data <;> first | exact absurd rfl hnn | rfl

theorem deliverAll_lengths (parse : String → Except JSError JValue) (msgs : List String)
    (prevData : ChartData) :
    (∀ st, deliverAll parse prevData msgs = .ok st →
      st.cun.length = prevData.cun.length + (msgs.filter (parsesToNonNull parse)).length ∧
      st.guan.length = prevData.guan.length + (msgs.filter (parsesToNonNull parse)).length ∧
      st.chi.length = prevData.chi.length + (msgs.filter (parsesToNonNull parse)).length) ∧
    (∀ e, deliverAll parse prevData msgs = .error e →
      e = .TypeError ∧ ∃ m ∈ msgs, parse m = .ok .null) ∧
    ((∀ m ∈ msgs, parse m ≠ .ok .null) → ∃ st, deliverAll parse prevData msgs = .ok st) := by
  induction msgs generalizing prevData with
  | nil =>
    refine ⟨fun st h => ?_, fun e h => ?_, fun _ => ⟨prevData, rfl⟩⟩
    · cases h
      simp
    · cases h
  | cons m rest ih =>
    cases hp : parse m with
    | error e0 =>
      have hfalse : parsesToNonNull parse m = false := by simp [parsesToNonNull, hp]
      have hstep : deliverAll parse prevData (m :: rest) = deliverAll parse prevData rest := by
        rw [deliverAll, dispatch_of_parse_error parse m e0 prevData hp]
      obtain ⟨ih1, ih2, ih3⟩ := ih prevData
      rw [hstep, List.filter_cons_of_neg (by simp [hfalse])]
      refine ⟨ih1, fun e h => ?_, fun hall => ih3 (fun x hx => hall x (List.mem_cons_of_mem _ hx))⟩
      obtain ⟨he, x, hx, hxn⟩ := ih2 e h
      exact ⟨he, x, List.mem_cons_of_mem _ hx, hxn⟩
    | ok data =>
      by_cases hnull : data = .null
      · subst hnull
        have hstep : deliverAll parse prevData (m :: rest) = .error .TypeError := by
          rw [deliverAll, dispatch_of_null parse m prevData hp]
        rw [hstep]
        refine ⟨fun st h => ?_, fun e h => ?_, fun hall => ?_⟩
        · cases h
        · cases h
          exact ⟨rfl, m, List.mem_cons_self _ _, hp⟩
        · exact absurd hp (hall m (List.mem_cons_self _ _))
      · have htrue := parsesToNonNull_of_ne_null parse m data hp hnull
        have hstep : deliverAll parse prevData (m :: rest) = deliverAll parse
            { cun := prevData.cun ++ [{ value := data.field .cun, time := data.field .timestamp }]
              guan := prevData.guan ++
                [{ value := data.field .guan, time := data.field .timestamp }]
              chi := prevData.chi ++ [{ value := data.field .chi, time := data.field .timestamp }] }
            rest := by
          rw [deliverAll, dispatch_of_ne_null parse m data prevData hp hnull]
        obtain ⟨ih1, ih2, ih3⟩ := ih
          { cun := prevData.cun ++ [{ value := data.field .cun, time := data.field .timestamp }]
            guan := prevData.guan ++ [{ value := data.field .guan, time := data.field .timestamp }]
            chi := prevData.chi ++ [{ value := data.field .chi, time := data.field .timestamp }] }
        rw [hstep, List.filter_cons_of_pos htrue]
        refine ⟨fun st h => ?_, fun e h => ?_,
          fun hall => ih3 (fun x hx => hall x (List.mem_cons_of_mem _ hx))⟩
        · obtain ⟨a, b, c⟩ := ih1 st h
          simp only [List.length_append, List.length_cons, List.length_nil] at a b c ⊢
          omega
        · obtain ⟨he, x, hx, hxn⟩ := ih2 e h
          exact ⟨he, x, List.mem_cons_of_mem _ hx, hxn⟩

/-- C9: the handler validates nothing. A message that parses to any value other
than `null` appends exactly one point to each series, whose value and time are
the property reads `cun`, `guan`, `chi` and `timestamp` on the parsed value:
`undefined` on anything but an object and on an object without the member, the
last member of that name otherwise, members of other names being ignored. So
the length of a series counts the messages that parsed to a value other than
`null`; a run of messages ends early only at one that parsed to `null`. -/
theorem no_schema_validation (parse : String → Except JSError JValue) (eventData : String)
    (data : JValue) (hparse : parse eventData = .ok data) (hnn : data ≠ .null) :
    (∀ prevData, dispatch parse eventData prevData = .committed
      { cun := prevData.cun ++ [{ value := data.field .cun, time := data.field .timestamp }]
        guan := prevData.guan ++ [{ value := data.field .guan, time := data.field .timestamp }]
        chi := prevData.chi ++ [{ value := data.field .chi, time := data.field .timestamp }] }) ∧
    (∀ f, getField data f = .ok (data.field f)) ∧
    (∀ f, (∀ members, data ≠ .obj members) → data.field f = .undefined) ∧
    (∀ f members, data = .obj members → (∀ kv ∈ members, kv.1 ≠ f.key) →
      data.field f = .undefined) ∧
    (∀ (f : Field) members earlier v later, data = .obj members →
      members = earlier ++ (f.key, v) :: later → (∀ kv ∈ later, kv.1 ≠ f.key) →
      data.field f = .json v) ∧
    (∀ f members, data = .obj members →
      data.field f = (JValue.obj (members.filter (fun kv => decide (kv.1 ∈ fieldKeys)))).field f) ∧
    (∀ msgs prevData,
      (∀ st, deliverAll parse prevData msgs = .ok st →
        st.cun.length = prevData.cun.length + (msgs.filter (parsesToNonNull parse)).length ∧
        st.guan.length = prevData.guan.length + (msgs.filter (parsesToNonNull parse)).length ∧
        st.chi.length = prevData.chi.length + (msgs.filter (parsesToNonNull parse)).length) ∧
      (∀ e, deliverAll parse prevData msgs = .error e →
        e = .TypeError ∧ ∃ m ∈ msgs, parse m = .ok .null) ∧
      ((∀ m ∈ msgs, parse m ≠ .ok .null) → ∃ st, deliverAll parse prevData msgs = .ok st)) := by
  refine ⟨fun prevData => dispatch_of_ne_null parse eventData data prevData hparse hnn,
    fun f => getField_of_ne_null data f hnn, ?_, ?_, ?_, ?_,
    fun msgs prevData => deliverAll_lengths parse msgs prevData⟩
  · intro f hno
    cases data with
    | obj members => exact absurd rfl (hno members)
    | _ => rfl
  · rintro f members rfl habsent
    exact ownProperty_of_absent members f.key habsent
  · rintro f members earlier v later rfl rfl hlater
    show ownProperty (earlier ++ (f.key, v) :: later) f.key = .json v
    have hsplit : earlier ++ (f.key, v) :: later = (earlier ++ [(f.key, v)]) ++ later := by simp
    rw [hsplit]
    clear hsplit hparse hnn
    induction later using List.reverseRecOn with
    | nil => simp [ownProperty_append]
    | append_singleton l a ih =>
      rw [← List.append_assoc, ownProperty_append, if_neg (hlater a (by simp))]
      exact ih (fun kv hkv => hlater kv (by simp [hkv]))
  · rintro f members rfl
    show ownProperty members f.key = ownProperty (members.filter _) f.key
    rw [ownProperty_filter]
    intro kv hkv
    simp [hkv, Field.key_mem_fieldKeys]

/-- The text `[true]` parses to an array, which is not `null`. -/
theorem no_schema_validation_witness :
    (JSON.parse arrayText = .ok (.arr [.bool true]) ∧ JValue.arr [.bool true] ≠ .null) ∧
    (∀ prevData, dispatch JSON.parse arrayText prevData = .committed
      { cun := prevData.cun ++ [{ value := .undefined, time := .undefined }]
        guan := prevData.guan ++ [{ value := .undefined, time := .undefined }]
        chi := prevData.chi ++ [{ value := .undefined, time := .undefined }] }) :=
  ⟨⟨rfl, fun h => JValue.noConfusion h⟩,
    (no_schema_validation JSON.parse arrayText (.arr [.bool true]) rfl
      (fun h => JValue.noConfusion h)).1⟩

/-- C10: the text `null` is JSON, so the handler returns after queuing its
update; the updater then raises a `TypeError` on `data.cun` in every prior
state, and the delivery produces no next state. -/
theorem null_message_faults_in_updater :
    JSON.parse "null" = .ok .null ∧
    (∃ call, onmessage JSON.parse "null" = .ok call ∧
      ∀ prevData, call.f prevData = .error .TypeError) ∧
    getField .null .cun = .error .TypeError ∧
    (∀ prevData, dispatch JSON.parse "null" prevData = .updaterRaised .TypeError) ∧
    (∀ prevData next, dispatch JSON.parse "null" prevData ≠ .committed next) := by
  refine ⟨rfl, ⟨{ f := updater .null }, rfl, fun prevData => rfl⟩, rfl,
    fun prevData => dispatch_of_null JSON.parse "null" prevData rfl, ?_⟩
  intro prevData next h
  rw [dispatch_of_null JSON.parse "null" prevData rfl] at h
  cases h

end App
